import Mathlib

/-!
Shallow embedding of the `rust-physics-sim` repository (files `src/lib.rs`,
`src/items.rs`, `src/grid.rs`).

Modelling conventions:
* `f32` scalars are idealised as real numbers (`ℝ`); decimal literals such as
  `0.1` are read as the exact rationals they denote.
* `i32` is modelled as `ℤ` and `usize` as `ℕ`; arithmetic overflow and the
  saturation of `as`-casts are outside the range exercised here and are not
  modelled.  Rust's `/` on `i32` (truncation toward zero) is `Int.tdiv`, and
  the `f32 → i32` cast (truncation toward zero) is `ftrunc` below.
* Mutation is modelled by explicit state passing.  Code paths that panic
  (`unwrap` on a missing key, `i32` division by zero, overlapping keys in
  `get_disjoint_mut`) are modelled by returning `none`.
* `HashMap<usize, T>` is modelled as an association list `List (ℕ × T)`;
  no relevant code path iterates over the map itself, so iteration order
  does not matter.
* Rendering-only data (colors, canvases) is omitted.
-/

namespace RPhys

noncomputable section

/-- 2D vector: the `[f32; 2]` of the source, idealised over `ℝ`. -/
abbrev Vec2 : Type := ℝ × ℝ

/-- `library::dot` (src/lib.rs:18): `vec1[0] * vec2[0] + vec1[1] * vec2[1]`. -/
def dot (vec1 vec2 : Vec2) : ℝ :=
  vec1.1 * vec2.1 + vec1.2 * vec2.2

/-- `library::get_magnitude` (src/lib.rs:33): `(x.powf(2.0) + y.powf(2.0)).sqrt()`. -/
noncomputable def get_magnitude (vec : Vec2) : ℝ :=
  Real.sqrt (vec.1 ^ 2 + vec.2 ^ 2)

/-- `library::normalize` (src/lib.rs:49): returns `[0, 0]` when the magnitude
is zero, otherwise divides componentwise by the magnitude. -/
noncomputable def normalize (vec : Vec2) : Vec2 :=
  let mag := get_magnitude vec
  if mag = 0 then (0, 0) else (vec.1 / mag, vec.2 / mag)

/-- `library::find_vector` (src/lib.rs:69): the vector from `x` to `y`. -/
def find_vector (x y : Vec2) : Vec2 :=
  (y.1 - x.1, y.2 - x.2)

/-- `library::find_normal` (src/lib.rs:86): normalized direction rotated 90°
counter-clockwise. -/
noncomputable def find_normal (x y : Vec2) : Vec2 :=
  let vec := normalize (find_vector x y)
  (-vec.2, vec.1)

/-- `items::MAX_VELOCITY` (src/items.rs:7). -/
def MAX_VELOCITY : ℝ := 2000

/-- `items::MIN_VELOCITY` (src/items.rs:9). -/
def MIN_VELOCITY : ℝ := -2000

/-- `items::GRAVITY` (src/items.rs:11). -/
def GRAVITY : Vec2 := (0, 400)

/-- Rust `f32::clamp(lo, hi)`: `lo` if below, `hi` if above, else unchanged. -/
def clamp (x lo hi : ℝ) : ℝ :=
  if x < lo then lo else if hi < x then hi else x

/-- `items::Wall` (src/items.rs:37), rendering color omitted. -/
structure Wall where
  id : ℕ
  a : Vec2
  b : Vec2
  width : ℤ
  vec : Vec2
  length : ℝ
  nvec : Vec2
  friction : ℝ
  restitution : ℝ

/-- `Wall::new` (src/items.rs:75): derives direction, length and normal from
the endpoints; optional parameters default as in the source. -/
noncomputable def Wall.new (a b : Vec2) (width : Option ℤ)
    (friction restitution : Option ℝ) : Wall :=
  let vector := find_vector a b
  { id := 0
    a := a
    b := b
    width := width.getD 10
    vec := normalize vector
    length := get_magnitude vector
    nvec := find_normal a b
    friction := friction.getD (1 / 10)
    restitution := restitution.getD (1 / 10) }

/-- `items::Ball` (src/items.rs:119), rendering color omitted. -/
structure Ball where
  id : ℕ
  position : Vec2
  velocity : Vec2
  radius : ℤ
  friction : ℝ
  restitution : ℝ
  unit_id : ℕ × ℕ

/-- `Ball::new` (src/items.rs:153); optional parameters default as in the
source. -/
def Ball.new (position : Vec2) (velocity : Option Vec2) (radius : Option ℤ)
    (friction restitution : Option ℝ) : Ball :=
  { id := 0
    position := position
    velocity := velocity.getD (0, 0)
    radius := radius.getD 10
    friction := friction.getD (1 / 10)
    restitution := restitution.getD (1 / 10)
    unit_id := (0, 0) }

/-- `Ball::move_ball` (src/items.rs:195): advances the position by
`velocity * dt` (using the unclamped velocity) and stores the clamped
velocity. -/
def Ball.move_ball (self : Ball) (delta : Option ℝ) : Ball :=
  let dt := delta.getD 1
  let new_x := self.position.1 + self.velocity.1 * dt
  let new_y := self.position.2 + self.velocity.2 * dt
  let clamped_vx := clamp self.velocity.1 MIN_VELOCITY MAX_VELOCITY
  let clamped_vy := clamp self.velocity.2 MIN_VELOCITY MAX_VELOCITY
  { self with position := (new_x, new_y), velocity := (clamped_vx, clamped_vy) }

/-- `Ball::apply_force` (src/items.rs:214): `velocity += force * dt`. -/
def Ball.apply_force (self : Ball) (force : Vec2) (delta : Option ℝ) : Ball :=
  let dt := delta.getD 1
  { self with
    velocity := (self.velocity.1 + force.1 * dt, self.velocity.2 + force.2 * dt) }

/-- `Ball::wall_collision` (src/items.rs:229): impulse response against a
wall, with the endpoint (corner) and mid-segment (face) branches of the
source. -/
noncomputable def Ball.wall_collision (self : Ball) (wall : Wall) : Ball :=
  let vec0 := find_vector wall.a self.position
  let position := dot vec0 wall.vec
  let vec := if position > wall.length then find_vector wall.b self.position else vec0
  let ntdm : Vec2 × Vec2 × ℝ × ℝ :=
    if position < 0 ∨ position > wall.length then
      let nvE := normalize vec
      (nvE, (-nvE.2, nvE.1), get_magnitude vec, (self.radius : ℝ))
    else
      (wall.nvec, wall.vec, dot vec wall.nvec,
        ((self.radius + Int.tdiv wall.width 2 : ℤ) : ℝ))
  let nv := ntdm.1
  let tv := ntdm.2.1
  let dist := ntdm.2.2.1
  let min_dist := ntdm.2.2.2
  if |dist| > min_dist then self
  else
    let n_vel := dot self.velocity nv
    if (n_vel < 0 ∧ dist < 0) ∨ (n_vel > 0 ∧ dist > 0) then self
    else
      let t_vel := dot self.velocity tv
      let total_restitution := wall.restitution + self.restitution
      let total_friction := wall.friction + self.friction
      let x_n := -n_vel * wall.nvec.1 * total_restitution
      let x_t := t_vel * wall.vec.1 * (1 - total_friction)
      let y_n := -n_vel * wall.nvec.2 * total_restitution
      let y_t := t_vel * wall.vec.2 * (1 - total_friction)
      let self1 := { self with velocity := (x_n + x_t, y_n + y_t) }
      let penetration := min_dist - |dist|
      if penetration > 0 then
        let sign : ℝ := if dist ≥ 0 then 1 else -1
        { self1 with
          position := (self1.position.1 + nv.1 * penetration * sign,
            self1.position.2 + nv.2 * penetration * sign) }
      else self1

/-- `Ball::ball_collision` (src/items.rs:303): impulse response between two
balls; returns the mutated `(self, other)` pair. -/
noncomputable def Ball.ball_collision (self other : Ball) : Ball × Ball :=
  let vec := find_vector other.position self.position
  let dist := get_magnitude vec
  let min_dist : ℝ := ((self.radius + other.radius : ℤ) : ℝ)
  if dist > min_dist then (self, other)
  else
    let nv := normalize vec
    let tv : Vec2 := (-nv.2, nv.1)
    let n_vel_self := dot self.velocity nv
    let t_vel_self := dot self.velocity tv
    let n_vel_other := dot other.velocity nv
    let t_vel_other := dot other.velocity tv
    if n_vel_self - n_vel_other > 0 then (self, other)
    else
      let avg_n_vel := (|n_vel_self| + |n_vel_other|) / 2
      let total_restitution := self.restitution + other.restitution
      let total_friction := self.friction + other.friction
      let x_n := avg_n_vel * nv.1 * total_restitution
      let x_t_self := t_vel_self * tv.1 * (1 - total_friction)
      let x_t_other := t_vel_other * tv.1 * (1 - total_friction)
      let y_n := avg_n_vel * nv.2 * total_restitution
      let y_t_self := t_vel_self * tv.2 * (1 - total_friction)
      let y_t_other := t_vel_other * tv.2 * (1 - total_friction)
      let self1 := { self with velocity := (x_n + x_t_self, y_n + y_t_self) }
      let other1 := { other with velocity := (-x_n + x_t_other, -y_n + y_t_other) }
      let penetration := min_dist - |dist|
      if penetration > 0 then
        ({ self1 with
            position := (self1.position.1 + nv.1 * penetration / 2,
              self1.position.2 + nv.2 * penetration / 2) },
          { other1 with
            position := (other1.position.1 - nv.1 * penetration / 2,
              other1.position.2 - nv.2 * penetration / 2) })
      else (self1, other1)

/-- `items::PhysItem` (src/items.rs:26): a body reference stored in a grid
section, tagged by kind, carrying the body's id. -/
inductive PhysItem where
  | Wall (id : ℕ)
  | Ball (id : ℕ)
  deriving DecidableEq

/-- `usize::MAX`, the coordinates of the sentinel (out-of-bounds) section. -/
def USIZE_MAX : ℕ := 2 ^ 64 - 1

/-- `Section::remove_ball` (src/grid.rs:59): `retain` dropping every ball
reference with the given id. -/
def removeBallItem (id : ℕ) (items : List PhysItem) : List PhysItem :=
  items.filter fun item =>
    match item with
    | PhysItem.Ball ball_id => ball_id != id
    | _ => true

/-- `HashMap::get`: first entry with the given key in the association list. -/
def alistGet {α : Type} (k : ℕ) : List (ℕ × α) → Option α
  | [] => none
  | (k', v) :: t => if k' = k then some v else alistGet k t

/-- `HashMap::remove` (result ignored by all callers modelled here). -/
def alistEraseKey {α : Type} (k : ℕ) (l : List (ℕ × α)) : List (ℕ × α) :=
  l.filter fun p => p.1 != k

/-- `HashMap::insert`: replaces any previous entry with the same key. -/
def alistInsert {α : Type} (k : ℕ) (v : α) (l : List (ℕ × α)) : List (ℕ × α) :=
  (k, v) :: alistEraseKey k l

/-- `HashMap::get_mut` followed by an assignment: rewrites the value stored
at the key, leaving the entry count unchanged. -/
def alistUpdate {α : Type} (k : ℕ) (v : α) (l : List (ℕ × α)) : List (ℕ × α) :=
  l.map fun p => if p.1 = k then (k, v) else p

/-- The keys of an association list. -/
def alistKeys {α : Type} (l : List (ℕ × α)) : List ℕ :=
  l.map Prod.fst

/-- `grid::Grid` (src/grid.rs:15).  `grid: Vec<Vec<Section>>` is modelled as
the function `cells` from a section's coordinates to its item list: in the
source a section's `id` field is set to its coordinates at construction and
never changed, so a section is determined by its coordinates and items.
`out_of_bounds.items` is `oob_items`; the two `HashMap`s are association
lists.  `cells` is meaningful at coordinates `(i, j)` with `i < x_units`,
`j < y_units` (the only ones the source ever indexes on the paths modelled;
the theorems' hypotheses keep the indexing of `cleanup` in this range). -/
@[ext]
structure Grid where
  unit_width : ℤ
  unit_height : ℤ
  cells : ℕ → ℕ → List PhysItem
  oob_items : List PhysItem
  walls : List (ℕ × Wall)
  balls : List (ℕ × Ball)
  x_units : ℤ
  y_units : ℤ
  ball_cnt : ℕ
  ball_id : ℕ
  wall_cnt : ℕ
  wall_id : ℕ

/-- The `f32 → i32` cast and the truncation used by the `f32` `%` in the
source: truncation toward zero (saturation not modelled). -/
def ftrunc (r : ℝ) : ℤ :=
  if r < 0 then ⌈r⌉ else ⌊r⌋

/-- Rust `f32 % f32` (sign of the dividend): `x - w * trunc(x / w)`.  Used
only with `w ≠ 0`. -/
def fmodf (x w : ℝ) : ℝ :=
  x - w * (ftrunc (x / w) : ℝ)

/-- Rust `i32 as usize` (two's-complement reinterpretation). -/
def i32_to_usize (z : ℤ) : ℕ :=
  (z % 2 ^ 64).toNat

/-- The coordinate part of `Grid::get_section` (src/grid.rs:121): the id of
the returned section, which is the sentinel pair for invalid coordinates. -/
def Grid.sectionId (g : Grid) (x y : ℤ) : ℕ × ℕ :=
  if x < 0 ∨ g.x_units ≤ x ∨ y < 0 ∨ g.y_units ≤ y then (USIZE_MAX, USIZE_MAX)
  else (x.toNat, y.toNat)

/-- `Grid::get_section(x, y).items.push(item)`: pushes into the addressed
section, or into the sentinel section for invalid coordinates. -/
def Grid.pushItem (g : Grid) (x y : ℤ) (item : PhysItem) : Grid :=
  if x < 0 ∨ g.x_units ≤ x ∨ y < 0 ∨ g.y_units ≤ y then
    { g with oob_items := g.oob_items ++ [item] }
  else
    { g with
      cells := fun i j =>
        if i = x.toNat ∧ j = y.toNat then g.cells i j ++ [item] else g.cells i j }

/-- The world-to-cell mapping on one axis (src/grid.rs:137-138):
`(c as i32 + size) / size` with `i32` truncating division. -/
def cellCoord (c : ℝ) (size : ℤ) : ℤ :=
  Int.tdiv (ftrunc c + size) size

/-- `Grid::get_section_at_position` (src/grid.rs:136), coordinate part. -/
def Grid.sectionIdAtPos (g : Grid) (x y : ℝ) : ℕ × ℕ :=
  g.sectionId (cellCoord x g.unit_width) (cellCoord y g.unit_height)

/-- `Grid::get_section_at_position(x, y).items.push(item)`. -/
def Grid.pushItemAtPos (g : Grid) (x y : ℝ) (item : PhysItem) : Grid :=
  g.pushItem (cellCoord x g.unit_width) (cellCoord y g.unit_height) item

/-- `Grid::add_ball` (src/grid.rs:265): fresh id, store the ball, push a
reference into its home section, record that section's id on the ball. -/
def Grid.add_ball (g : Grid) (ball : Ball) : Grid :=
  let idx := g.ball_id
  let sid := g.sectionIdAtPos ball.position.1 ball.position.2
  let g1 := g.pushItemAtPos ball.position.1 ball.position.2 (PhysItem.Ball idx)
  { g1 with
    ball_id := idx + 1
    ball_cnt := g.ball_cnt + 1
    balls := alistInsert idx { ball with unit_id := sid, id := idx } g.balls }

/-- `Grid::move_ball` (src/grid.rs:286): cell reconciliation.  `none` models
the `unwrap` panic on a missing ball id. -/
def Grid.move_ball (g : Grid) (idx : ℕ) : Option Grid :=
  match alistGet idx g.balls with
  | none => none
  | some ball =>
    let ball_id := ball.unit_id
    let sid := g.sectionIdAtPos ball.position.1 ball.position.2
    if sid = ball_id then some g
    else
      let g1 := g.pushItemAtPos ball.position.1 ball.position.2 (PhysItem.Ball idx)
      let g2 :=
        if i32_to_usize g.x_units ≤ ball_id.1 ∨ i32_to_usize g.y_units ≤ ball_id.2 then
          { g1 with oob_items := removeBallItem idx g1.oob_items }
        else
          { g1 with
            cells := fun i j =>
              if i = ball_id.1 ∧ j = ball_id.2 then removeBallItem idx (g1.cells i j)
              else g1.cells i j }
      some { g2 with balls := alistUpdate idx { ball with unit_id := sid } g2.balls }

/-- The body of the first `cleanup` loop (src/grid.rs:335-344): a ball
reference found in the sentinel section is removed from the sentinel's
items, deleted from the ball collection, and the live count decremented;
wall references are skipped. -/
def cleanupOobStep (acc : Grid) (item : PhysItem) : Grid :=
  match item with
  | PhysItem.Ball idx =>
    { acc with
      oob_items := removeBallItem idx acc.oob_items
      balls := alistEraseKey idx acc.balls
      ball_cnt := acc.ball_cnt - 1 }
  | _ => acc

/-- The body of the second `cleanup` loop (src/grid.rs:348-357), for the
bottom-row cell at coordinates `(x, y)`. -/
def cleanupRowStep (x y : ℕ) (acc : Grid) (item : PhysItem) : Grid :=
  match item with
  | PhysItem.Ball idx =>
    { acc with
      cells := fun i j =>
        if i = x ∧ j = y then removeBallItem idx (acc.cells i j)
        else acc.cells i j
      balls := alistEraseKey idx acc.balls
      ball_cnt := acc.ball_cnt - 1 }
  | _ => acc

/-- `Grid::cleanup` (src/grid.rs:333): removes the balls referenced from the
sentinel section, then the balls referenced from the bottommost row.  The
source iterates over a clone of each item list while mutating the live one;
`usize` underflow of `ball_cnt` (a debug-mode panic) is modelled as
saturating subtraction and excluded by the theorems' hypotheses. -/
def Grid.cleanup (g : Grid) : Grid :=
  let g1 := g.oob_items.foldl cleanupOobStep g
  let y := i32_to_usize (g.y_units - 1)
  (List.range (i32_to_usize g.x_units)).foldl
    (fun acc x => (acc.cells x y).foldl (cleanupRowStep x y) acc)
    g1

/-- The per-item step of `Grid::handle_collisions` (src/grid.rs:381-401).
State: the ball map and the per-ball `handled` list.  `none` models the two
`unwrap` panics and the overlapping-key panic of `get_disjoint_mut`. -/
def hcItem (g : Grid) (idx : ℕ) (st : List (ℕ × Ball) × List ℕ) (item : PhysItem) :
    Option (List (ℕ × Ball) × List ℕ) :=
  match item with
  | PhysItem.Ball o_idx =>
    if o_idx ∈ st.2 then some st
    else if o_idx = idx then none
    else
      match alistGet idx st.1, alistGet o_idx st.1 with
      | some ball, some other =>
        let r := ball.ball_collision other
        some (alistUpdate o_idx r.2 (alistUpdate idx r.1 st.1), st.2 ++ [o_idx])
      | _, _ => some st
  | PhysItem.Wall o_idx =>
    if o_idx ∈ st.2 then some st
    else
      match alistGet o_idx g.walls with
      | none => none
      | some other =>
        match alistGet idx st.1 with
        | none => none
        | some ball =>
          some (alistUpdate idx (ball.wall_collision other) st.1, st.2 ++ [o_idx])

/-- One cell of the 3×3 neighborhood scan (src/grid.rs:380-403): clipped to
valid bounds, then folds over a snapshot of the cell's items. -/
def hcCell (g : Grid) (idx : ℕ) (st : List (ℕ × Ball) × List ℕ) (x y : ℤ) :
    Option (List (ℕ × Ball) × List ℕ) :=
  if 0 ≤ x ∧ x < g.x_units ∧ 0 ≤ y ∧ y < g.y_units then
    (g.cells x.toNat y.toNat).foldlM (hcItem g idx) st
  else some st

/-- Rust `(a - 1)..(a + 2)`. -/
def range3 (a : ℤ) : List ℤ :=
  [a - 1, a, a + 1]

/-- The per-ball step of `Grid::handle_collisions` (src/grid.rs:366-405):
skip removed ids, compute the ball's cell coordinates, seed the `handled`
list with the ball's own id, scan the 3×3 neighborhood. -/
def hcBall (g : Grid) (balls : List (ℕ × Ball)) (idx : ℕ) :
    Option (List (ℕ × Ball)) :=
  match alistGet idx balls with
  | none => some balls
  | some ball =>
    let x_unit := cellCoord ball.position.1 g.unit_width
    let y_unit := cellCoord ball.position.2 g.unit_height
    ((range3 x_unit).foldlM
      (fun st1 x => (range3 y_unit).foldlM (fun st2 y => hcCell g idx st2 x y) st1)
      (balls, [idx])).map Prod.fst

/-- `Grid::handle_collisions` (src/grid.rs:365). -/
def Grid.handle_collisions (g : Grid) : Option Grid :=
  ((List.range g.ball_id).foldlM (hcBall g) g.balls).map
    fun bs => { g with balls := bs }

/-- Loop state of the DDA traversal (src/grid.rs:156-249).  `rx` is an
`Option` because `relative_x` can become an `f32` non-finite value
(`vx * INFINITY`); `none` stands for every non-finite value.  All of
`f32`'s non-finite values compare `false` under `<` against the values they
meet in this loop, which is exactly how `none` is treated below, so the
conflation is behavior-preserving.  `ry` stays finite on every path. -/
structure DdaState where
  visited : List (ℕ × ℕ)
  curr : ℕ × ℕ
  cx : ℤ
  cy : ℤ
  rx : Option ℝ
  ry : ℝ
  steps : ℤ

/-- The boundary-crossing step (src/grid.rs:193-233): boundary-crossing
times `tx`, `ty` (with `none` as the `f32::INFINITY` of the source, also
after the `t <= 0` clamp), then the nearer boundary is crossed.  Returns
the new `(curr_x_unit, curr_y_unit, relative_x, relative_y)`. -/
def ddaNext (g : Grid) (vx vy : ℝ) (st : DdaState) : ℤ × ℤ × Option ℝ × ℝ :=
  let tx0 : Option ℝ :=
    if vx < 0 then st.rx.map fun r => -r / vx
    else if vx > 0 then st.rx.map fun r => ((g.unit_width : ℝ) - r) / vx
    else none
  let ty0 : Option ℝ :=
    if vy < 0 then some (-st.ry / vy)
    else if vy > 0 then some (((g.unit_height : ℝ) - st.ry) / vy)
    else none
  let tx : Option ℝ :=
    match tx0 with
    | some t => if t ≤ 0 then none else some t
    | none => none
  let ty : Option ℝ :=
    match ty0 with
    | some t => if t ≤ 0 then none else some t
    | none => none
  match tx, ty with
  | some t, some t2 =>
    if t < t2 then
      (if vx > 0 then st.cx + 1 else st.cx - 1, st.cy,
        some (if vx > 0 then 0 else (g.unit_width : ℝ)), vy * t)
    else
      (st.cx, if vy > 0 then st.cy + 1 else st.cy - 1,
        some (vx * t2), if vy > 0 then 0 else (g.unit_height : ℝ))
  | some t, none =>
    (if vx > 0 then st.cx + 1 else st.cx - 1, st.cy,
      some (if vx > 0 then 0 else (g.unit_width : ℝ)), vy * t)
  | none, t2 =>
    (st.cx, if vy > 0 then st.cy + 1 else st.cy - 1,
      t2.map fun tt => vx * tt, if vy > 0 then 0 else (g.unit_height : ℝ))

/-- The `'get_sections` loop (src/grid.rs:184-249), returning the visited
ids together with the final value of the `steps` counter.  Each recursive
call increments `steps` and is guarded by `steps ≤ max_steps`, so for the
fuel supplied by `get_sections_between_points` the fuel-exhaustion branch is
unreachable; the `max_steps` check of the source is modelled explicitly. -/
def ddaLoop (g : Grid) (vx vy : ℝ) (endId : ℕ × ℕ) (max_steps : ℤ) :
    ℕ → DdaState → List (ℕ × ℕ) × ℤ
  | 0, st => (st.visited, st.steps)
  | fuel + 1, st =>
    let visited := if st.curr ∈ st.visited then st.visited else st.visited ++ [st.curr]
    if st.curr = endId then (visited, st.steps)
    else
      let next := ddaNext g vx vy st
      let cx' := next.1
      let cy' := next.2.1
      let rx' := next.2.2.1
      let ry' := next.2.2.2
      if cx' < 0 ∨ g.x_units ≤ cx' ∨ cy' < 0 ∨ g.y_units ≤ cy' then
        (if (USIZE_MAX, USIZE_MAX) ∈ visited then visited
          else visited ++ [(USIZE_MAX, USIZE_MAX)], st.steps)
      else
        let curr' := (cx'.toNat, cy'.toNat)
        let steps' := st.steps + 1
        if max_steps < steps' then (visited, steps')
        else ddaLoop g vx vy endId max_steps fuel
          ⟨visited, curr', cx', cy', rx', ry', steps'⟩

/-- `Grid::get_sections_between_points` (src/grid.rs:156), instrumented to
also return the final `steps` counter (the source returns only the list).
`none` models the `i32` division-by-zero panic at src/grid.rs:163-164 when
a cell dimension is zero. -/
def Grid.get_sections_between_points (g : Grid) (s e : Vec2) :
    Option (List (ℕ × ℕ) × ℤ) :=
  if g.unit_width = 0 ∨ g.unit_height = 0 then none
  else
    let vec := normalize (find_vector s e)
    let vx := vec.1
    let vy := vec.2
    let curr_x_unit := cellCoord s.1 g.unit_width
    let curr_y_unit := cellCoord s.2 g.unit_height
    let relative_x := fmodf s.1 (g.unit_width : ℝ)
    let relative_y := fmodf s.2 (g.unit_height : ℝ)
    let curr := g.sectionId curr_x_unit curr_y_unit
    let endId := g.sectionIdAtPos e.1 e.2
    if (vx = 0 ∧ vy = 0) ∨ curr = endId then some ([curr], 0)
    else
      let max_steps := (g.x_units + g.y_units) * 2 + 10
      let r := ddaLoop g vx vy endId max_steps (max_steps.toNat + 4)
        ⟨[], curr, curr_x_unit, curr_y_unit, some relative_x, relative_y, 0⟩
      some ((if endId ∈ r.1 then r.1 else r.1 ++ [endId]), r.2)

/-! ### Helper lemmas -/

lemma magnitude_eval (x y m : ℝ) (hm : 0 ≤ m) (h : x ^ 2 + y ^ 2 = m ^ 2) :
    get_magnitude (x, y) = m := by
  have h0 : get_magnitude (x, y) = Real.sqrt (x ^ 2 + y ^ 2) := rfl
  rw [h0, h, Real.sqrt_sq hm]

lemma normalize_eval (x y m : ℝ) (hm : m ≠ 0) (h : get_magnitude (x, y) = m) :
    normalize (x, y) = (x / m, y / m) := by
  simp only [normalize]
  rw [h, if_neg hm]

lemma normalize_zero : normalize (0, 0) = (0, 0) := by
  simp only [normalize]
  rw [magnitude_eval 0 0 0 le_rfl (by norm_num), if_pos rfl]

lemma clamp_mem (x lo hi : ℝ) (h : lo ≤ hi) : lo ≤ clamp x lo hi ∧ clamp x lo hi ≤ hi := by
  unfold clamp
  split_ifs with h1 h2 <;> constructor <;> linarith

/-! ### C4: the far-apart no-op guarantee of `ball_collision` -/

/-- Claim C4: for every pair of balls whose center distance is strictly
greater than the sum of their radii, `ball_collision` leaves both balls'
velocities and positions unchanged. -/
theorem c4_ball_collision_noop (self other : Ball)
    (h : ((self.radius + other.radius : ℤ) : ℝ) <
      get_magnitude (find_vector other.position self.position)) :
    self.ball_collision other = (self, other) := by
  simp only [Ball.ball_collision]
  rw [if_pos h]

def c4Self : Ball := ⟨0, (0, 0), (0, 0), 10, 1 / 10, 1 / 10, (0, 0)⟩

def c4Other : Ball := ⟨1, (30, 0), (0, 0), 10, 1 / 10, 1 / 10, (0, 0)⟩

/-- Witness for C4 at two balls of radius 10 whose centers are 30 apart. -/
theorem c4_ball_collision_noop_witness :
    ((c4Self.radius + c4Other.radius : ℤ) : ℝ) <
      get_magnitude (find_vector c4Other.position c4Self.position) ∧
    c4Self.ball_collision c4Other = (c4Self, c4Other) := by
  have hv : find_vector c4Other.position c4Self.position = (-30, 0) := by
    simp only [c4Self, c4Other, find_vector]
    norm_num
  have hmag : get_magnitude (find_vector c4Other.position c4Self.position) = 30 := by
    rw [hv, magnitude_eval (-30) 0 30 (by norm_num) (by norm_num)]
  have h : ((c4Self.radius + c4Other.radius : ℤ) : ℝ) <
      get_magnitude (find_vector c4Other.position c4Self.position) := by
    rw [hmag]
    norm_num [c4Self, c4Other]
  exact ⟨h, c4_ball_collision_noop c4Self c4Other h⟩

/-! ### C6: velocity bounds after the per-frame integration step -/

def c6Ball : Ball := ⟨0, (0, 0), (0, 2000), 10, 1 / 10, 1 / 10, (0, 0)⟩

/-- Counterexample to claim C6 as stated: a ball whose vertical velocity is
already at the clamp bound `2000` leaves the integration step of
`draw_frame` (`move_ball` with `dt = 1`, then `apply_force GRAVITY`) with
vertical velocity `2400`, outside `[-2000, 2000]`, because gravity is
applied after the clamp. -/
theorem c6_counterexample :
    ((c6Ball.move_ball (some 1)).apply_force GRAVITY (some 1)).velocity.2 = 2400 ∧
    ¬ ((c6Ball.move_ball (some 1)).apply_force GRAVITY (some 1)).velocity.2 ≤
      MAX_VELOCITY := by
  have h : ((c6Ball.move_ball (some 1)).apply_force GRAVITY (some 1)).velocity.2 = 2400 := by
    simp only [c6Ball, Ball.move_ball, Ball.apply_force, clamp, GRAVITY,
      MIN_VELOCITY, MAX_VELOCITY, Option.getD]
    norm_num
  refine ⟨h, ?_⟩
  rw [h, MAX_VELOCITY]
  norm_num

/-- Claim C6, amended: after `move_ball`'s clamp the velocity components lie
in `[MIN_VELOCITY, MAX_VELOCITY] = [-2000, 2000]`; the subsequent gravity
application (`apply_force GRAVITY dt`) shifts the attainable range by
`GRAVITY * dt`, so after the full integration step each component lies in
the clamp range shifted by the gravity increment, not in the clamp range
itself. -/
theorem c6_amended_velocity_bounds (self : Ball) (dt : ℝ) :
    (MIN_VELOCITY ≤ (self.move_ball (some dt)).velocity.1 ∧
      (self.move_ball (some dt)).velocity.1 ≤ MAX_VELOCITY) ∧
    (MIN_VELOCITY ≤ (self.move_ball (some dt)).velocity.2 ∧
      (self.move_ball (some dt)).velocity.2 ≤ MAX_VELOCITY) ∧
    (MIN_VELOCITY + GRAVITY.1 * dt ≤
        ((self.move_ball (some dt)).apply_force GRAVITY (some dt)).velocity.1 ∧
      ((self.move_ball (some dt)).apply_force GRAVITY (some dt)).velocity.1 ≤
        MAX_VELOCITY + GRAVITY.1 * dt) ∧
    (MIN_VELOCITY + GRAVITY.2 * dt ≤
        ((self.move_ball (some dt)).apply_force GRAVITY (some dt)).velocity.2 ∧
      ((self.move_ball (some dt)).apply_force GRAVITY (some dt)).velocity.2 ≤
        MAX_VELOCITY + GRAVITY.2 * dt) := by
  have hlo : MIN_VELOCITY ≤ MAX_VELOCITY := by
    rw [MIN_VELOCITY, MAX_VELOCITY]; norm_num
  have h1 := clamp_mem self.velocity.1 MIN_VELOCITY MAX_VELOCITY hlo
  have h2 := clamp_mem self.velocity.2 MIN_VELOCITY MAX_VELOCITY hlo
  dsimp only [Ball.move_ball, Ball.apply_force, Option.getD]
  exact ⟨⟨h1.1, h1.2⟩, ⟨h2.1, h2.2⟩,
    ⟨by linarith [h1.1], by linarith [h1.2]⟩,
    ⟨by linarith [h2.1], by linarith [h2.2]⟩⟩

/-! ### C8: degenerate geometry is handled totally -/

/-- Claim C8: `normalize` returns the zero vector whenever its input has
zero magnitude, and `ball_collision` on two balls with coincident centers
and positive radii is well-defined (no division by zero, no panic): the
degenerate zero normal makes every response component zero, so both
velocities are set to `(0, 0)` and both positions are unchanged. -/
theorem c8_zero_magnitude_total :
    (∀ v : Vec2, get_magnitude v = 0 → normalize v = (0, 0)) ∧
    (∀ self other : Ball, self.position = other.position →
      0 < self.radius → 0 < other.radius →
      self.ball_collision other =
        ({ self with velocity := (0, 0) }, { other with velocity := (0, 0) })) := by
  constructor
  · intro v hv
    simp only [normalize]
    rw [hv, if_pos rfl]
  · intro self other hpos hr1 hr2
    have hvec : find_vector other.position self.position = (0, 0) := by
      rw [hpos]
      simp [find_vector]
    have hmin : (0 : ℝ) < ((self.radius + other.radius : ℤ) : ℝ) := by
      have : (0 : ℤ) < self.radius + other.radius := by omega
      exact_mod_cast this
    simp only [Ball.ball_collision, hvec, normalize_zero,
      magnitude_eval 0 0 0 le_rfl (by norm_num)]
    rw [if_neg (by push_neg; linarith), if_neg (by simp [dot])]
    simp only [dot]
    rw [if_pos (by simpa using hmin)]
    simp [Prod.mk.injEq, Ball.mk.injEq, hpos]

def c8Vec : Vec2 := (0, 0)

def c8Self : Ball := ⟨0, (5, 5), (3, 4), 10, 1 / 10, 1 / 10, (0, 0)⟩

def c8Other : Ball := ⟨1, (5, 5), (1, 2), 10, 1 / 10, 1 / 10, (0, 0)⟩

/-- Witness for C8: the zero vector, and two coincident balls of radius 10. -/
theorem c8_zero_magnitude_total_witness :
    get_magnitude c8Vec = 0 ∧ normalize c8Vec = (0, 0) ∧
    c8Self.position = c8Other.position ∧ 0 < c8Self.radius ∧ 0 < c8Other.radius ∧
    c8Self.ball_collision c8Other =
      ({ c8Self with velocity := (0, 0) }, { c8Other with velocity := (0, 0) }) := by
  have hmag : get_magnitude c8Vec = 0 := by
    rw [c8Vec, magnitude_eval 0 0 0 le_rfl (by norm_num)]
  have hpos : c8Self.position = c8Other.position := rfl
  have hr1 : (0 : ℤ) < c8Self.radius := by norm_num [c8Self]
  have hr2 : (0 : ℤ) < c8Other.radius := by norm_num [c8Other]
  exact ⟨hmag, c8_zero_magnitude_total.1 c8Vec hmag, hpos, hr1, hr2,
    c8_zero_magnitude_total.2 c8Self c8Other hpos hr1 hr2⟩

/-! ### C1: the velocity formula of the ball-ball response -/

/-- Modelled from the spec wording quoted by claim C1 (§4.5): the new
normal contribution is `avgNormalSpeed * n * (1 - (restitution(self) +
restitution(other)))` with opposite signs, the tangential contribution is
the ball's own tangential component scaled by `(1 - (friction(self) +
friction(other)))`. -/
def c1ClaimVelocities (self other : Ball) : Vec2 × Vec2 :=
  let vec := find_vector other.position self.position
  let nv := normalize vec
  let tv : Vec2 := (-nv.2, nv.1)
  let n_vel_self := dot self.velocity nv
  let t_vel_self := dot self.velocity tv
  let n_vel_other := dot other.velocity nv
  let t_vel_other := dot other.velocity tv
  let avg_n_vel := (|n_vel_self| + |n_vel_other|) / 2
  let total_restitution := self.restitution + other.restitution
  let total_friction := self.friction + other.friction
  ((avg_n_vel * nv.1 * (1 - total_restitution) + t_vel_self * tv.1 * (1 - total_friction),
      avg_n_vel * nv.2 * (1 - total_restitution) + t_vel_self * tv.2 * (1 - total_friction)),
    (-(avg_n_vel * nv.1 * (1 - total_restitution)) + t_vel_other * tv.1 * (1 - total_friction),
      -(avg_n_vel * nv.2 * (1 - total_restitution)) + t_vel_other * tv.2 * (1 - total_friction)))

/-- Claim C1, amended: the normal contribution is scaled by the bare sum
`restitution(self) + restitution(other)` (not by one minus that sum); the
tangential part is as the claim states it. -/
def c1AmendedVelocities (self other : Ball) : Vec2 × Vec2 :=
  let vec := find_vector other.position self.position
  let nv := normalize vec
  let tv : Vec2 := (-nv.2, nv.1)
  let n_vel_self := dot self.velocity nv
  let t_vel_self := dot self.velocity tv
  let n_vel_other := dot other.velocity nv
  let t_vel_other := dot other.velocity tv
  let avg_n_vel := (|n_vel_self| + |n_vel_other|) / 2
  let total_restitution := self.restitution + other.restitution
  let total_friction := self.friction + other.friction
  ((avg_n_vel * nv.1 * total_restitution + t_vel_self * tv.1 * (1 - total_friction),
      avg_n_vel * nv.2 * total_restitution + t_vel_self * tv.2 * (1 - total_friction)),
    (-(avg_n_vel * nv.1 * total_restitution) + t_vel_other * tv.1 * (1 - total_friction),
      -(avg_n_vel * nv.2 * total_restitution) + t_vel_other * tv.2 * (1 - total_friction)))

def c1Self : Ball := ⟨0, (10, 0), (-1, 0), 10, 1 / 10, 1 / 10, (0, 0)⟩

def c1Other : Ball := ⟨1, (0, 0), (0, 0), 10, 1 / 10, 1 / 10, (0, 0)⟩

lemma c1_vec_eval : find_vector c1Other.position c1Self.position = (10, 0) := by
  simp only [c1Self, c1Other, find_vector]
  norm_num

lemma c1_mag_eval : get_magnitude (10, 0) = 10 :=
  magnitude_eval 10 0 10 (by norm_num) (by norm_num)

lemma c1_normalize_eval : normalize (10, 0) = (1, 0) := by
  rw [normalize_eval 10 0 10 (by norm_num) c1_mag_eval]
  norm_num

/-- Counterexample to claim C1 as stated: two touching, approaching default
balls (restitution 0.1 each).  The code scales the normal response by the
restitution sum `0.2` and yields velocity `(1/10, 0)` for `self`, while the
claim's factor `1 - 0.2 = 0.8` predicts `(2/5, 0)`. -/
theorem c1_counterexample :
    (c1Self.ball_collision c1Other).1.velocity = (1 / 10, 0) ∧
    (c1ClaimVelocities c1Self c1Other).1 = (2 / 5, 0) ∧
    (c1Self.ball_collision c1Other).1.velocity ≠ (c1ClaimVelocities c1Self c1Other).1 := by
  have h1 : (c1Self.ball_collision c1Other).1.velocity = (1 / 10, 0) := by
    simp only [Ball.ball_collision, c1_vec_eval, c1_mag_eval, c1_normalize_eval]
    norm_num [c1Self, c1Other, dot, Prod.mk.injEq]
  have h2 : (c1ClaimVelocities c1Self c1Other).1 = (2 / 5, 0) := by
    simp only [c1ClaimVelocities, c1_vec_eval, c1_normalize_eval]
    norm_num [c1Self, c1Other, dot, Prod.mk.injEq]
  refine ⟨h1, h2, ?_⟩
  rw [h1, h2]
  intro h
  have := congrArg Prod.fst h
  norm_num at this

/-- Claim C1, amended: when the two balls are touching (`¬ dist > minDist`)
and not separating (`¬ n_vel(self) - n_vel(other) > 0`), the new velocities
are the equal-and-opposite normal contributions `avgNormalSpeed * n *
(restitution(self) + restitution(other))` plus each ball's own tangential
component scaled by `(1 - (friction(self) + friction(other)))`. -/
theorem c1_amended_ball_collision_velocities (self other : Ball)
    (htouch : ¬ get_magnitude (find_vector other.position self.position) >
      ((self.radius + other.radius : ℤ) : ℝ))
    (happr : ¬ dot self.velocity (normalize (find_vector other.position self.position)) -
      dot other.velocity (normalize (find_vector other.position self.position)) > 0) :
    (self.ball_collision other).1.velocity = (c1AmendedVelocities self other).1 ∧
    (self.ball_collision other).2.velocity = (c1AmendedVelocities self other).2 := by
  simp only [Ball.ball_collision, c1AmendedVelocities]
  rw [if_neg htouch, if_neg happr]
  split_ifs with hpen
  · exact ⟨rfl, rfl⟩
  · exact ⟨rfl, rfl⟩

/-- Witness for the amended C1 at the concrete touching, approaching pair. -/
theorem c1_amended_ball_collision_velocities_witness :
    (¬ get_magnitude (find_vector c1Other.position c1Self.position) >
      ((c1Self.radius + c1Other.radius : ℤ) : ℝ)) ∧
    (¬ dot c1Self.velocity (normalize (find_vector c1Other.position c1Self.position)) -
      dot c1Other.velocity (normalize (find_vector c1Other.position c1Self.position)) > 0) ∧
    (c1Self.ball_collision c1Other).1.velocity = (c1AmendedVelocities c1Self c1Other).1 ∧
    (c1Self.ball_collision c1Other).2.velocity = (c1AmendedVelocities c1Self c1Other).2 := by
  have htouch : ¬ get_magnitude (find_vector c1Other.position c1Self.position) >
      ((c1Self.radius + c1Other.radius : ℤ) : ℝ) := by
    rw [c1_vec_eval, c1_mag_eval]
    norm_num [c1Self, c1Other]
  have happr : ¬ dot c1Self.velocity (normalize (find_vector c1Other.position c1Self.position)) -
      dot c1Other.velocity (normalize (find_vector c1Other.position c1Self.position)) > 0 := by
    rw [c1_vec_eval, c1_normalize_eval]
    norm_num [c1Self, c1Other, dot]
  exact ⟨htouch, happr,
    (c1_amended_ball_collision_velocities c1Self c1Other htouch happr).1,
    (c1_amended_ball_collision_velocities c1Self c1Other htouch happr).2⟩

/-! ### C2: the world-to-cell mapping -/

lemma ftrunc_intCast (n : ℤ) : ftrunc (n : ℝ) = n := by
  unfold ftrunc
  split_ifs <;> simp

lemma ftrunc_of_nonneg (x : ℝ) (hx : 0 ≤ x) : ftrunc x = ⌊x⌋ := by
  unfold ftrunc
  rw [if_neg (not_lt.mpr hx)]

lemma int_floor_div (x : ℝ) (w : ℤ) (hw : 0 < w) : ⌊x / (w : ℝ)⌋ = ⌊x⌋ / w := by
  have hwR : (0 : ℝ) < (w : ℝ) := by exact_mod_cast hw
  have hdm := Int.ediv_add_emod ⌊x⌋ w
  have hr0 : 0 ≤ ⌊x⌋ % w := Int.emod_nonneg ⌊x⌋ (ne_of_gt hw)
  have hrw : ⌊x⌋ % w < w := Int.emod_lt_of_pos ⌊x⌋ hw
  have hfl : (⌊x⌋ : ℝ) ≤ x := Int.floor_le x
  have hfu : x < (⌊x⌋ : ℝ) + 1 := Int.lt_floor_add_one x
  rw [Int.floor_eq_iff]
  constructor
  · rw [le_div_iff₀ hwR]
    have : ((⌊x⌋ / w : ℤ) : ℝ) * (w : ℝ) ≤ ((⌊x⌋ : ℤ) : ℝ) := by
      have h : (⌊x⌋ / w) * w ≤ ⌊x⌋ := by
        have e : (⌊x⌋ / w) * w = w * (⌊x⌋ / w) := by ring
        rw [e]
        linarith [hdm, hr0]
      exact_mod_cast h
    linarith
  · rw [div_lt_iff₀ hwR]
    have : ((⌊x⌋ : ℤ) : ℝ) + 1 ≤ ((⌊x⌋ / w + 1 : ℤ) : ℝ) * (w : ℝ) := by
      have h : ⌊x⌋ + 1 ≤ (⌊x⌋ / w + 1) * w := by
        have e : (⌊x⌋ / w + 1) * w = w * (⌊x⌋ / w) + w := by ring
        rw [e]
        linarith [hdm, hrw]
      exact_mod_cast h
    push_cast at this ⊢
    linarith

lemma cellCoord_floor (x : ℝ) (w : ℤ) (hw : 0 < w) (hx : 0 ≤ x) :
    cellCoord x w = ⌊(x + (w : ℝ)) / (w : ℝ)⌋ := by
  have hwR : (0 : ℝ) < (w : ℝ) := by exact_mod_cast hw
  have h1 : (x + (w : ℝ)) / (w : ℝ) = x / (w : ℝ) + 1 := by
    field_simp
  rw [cellCoord, ftrunc_of_nonneg x hx, h1, Int.floor_add_one, int_floor_div x w hw]
  have h0 : 0 ≤ ⌊x⌋ := Int.floor_nonneg.mpr hx
  rw [Int.tdiv_eq_ediv (by omega) (by omega),
    show ⌊x⌋ + w = ⌊x⌋ + 1 * w by ring,
    Int.add_mul_ediv_right ⌊x⌋ 1 (show w ≠ 0 by omega)]

def c2Grid : Grid :=
  { unit_width := 10, unit_height := 10, cells := fun _ _ => [], oob_items := [],
    walls := [], balls := [], x_units := 12, y_units := 12,
    ball_cnt := 0, ball_id := 0, wall_cnt := 0, wall_id := 0 }

/-- Counterexample to claim C2 as stated: at world coordinate `x = -15`
(cell size 10) the claim's formula `floor((x + size) / size)` gives cell
`-1`, hence predicts the sentinel; the code truncates toward zero twice
(`x as i32`, then `i32` division) and maps the coordinate to the valid
border cell `(0, 1)` instead. -/
theorem c2_counterexample :
    c2Grid.sectionIdAtPos (-15) 5 = (0, 1) ∧
    ⌊((-15 : ℝ) + (c2Grid.unit_width : ℝ)) / (c2Grid.unit_width : ℝ)⌋ = -1 ∧
    ((0, 1) : ℕ × ℕ) ≠ (USIZE_MAX, USIZE_MAX) := by
  refine ⟨?_, ?_, by decide⟩
  · have hx : cellCoord (-15) c2Grid.unit_width = 0 := by
      have h : ftrunc (-15 : ℝ) = -15 := by
        rw [show ((-15 : ℝ)) = ((-15 : ℤ) : ℝ) by norm_num, ftrunc_intCast]
      rw [cellCoord, h]
      decide
    have hy : cellCoord 5 c2Grid.unit_height = 1 := by
      have h : ftrunc (5 : ℝ) = 5 := by
        rw [show ((5 : ℝ)) = ((5 : ℤ) : ℝ) by norm_num, ftrunc_intCast]
      rw [cellCoord, h]
      decide
    rw [Grid.sectionIdAtPos, hx, hy]
    decide
  · rw [show ((-15 : ℝ) + (c2Grid.unit_width : ℝ)) / (c2Grid.unit_width : ℝ) = -1 / 2 by
      norm_num [c2Grid]]
    rw [Int.floor_eq_iff]
    norm_num

/-- Claim C2, amended: the mapping truncates toward zero on each axis
(`(x as i32 + cellSize) / cellSize` with `i32` division); for nonnegative
world coordinates (and positive cell size) this coincides with the claim's
`floor((worldCoord + cellSize) / cellSize)`, and any coordinate whose
mapped cell falls outside `[0, columnCount) × [0, rowCount)` resolves to
the sentinel cell. -/
theorem c2_amended_cell_mapping (g : Grid) (x y : ℝ)
    (hw : 0 < g.unit_width) (hh : 0 < g.unit_height) :
    g.sectionIdAtPos x y =
      g.sectionId (cellCoord x g.unit_width) (cellCoord y g.unit_height) ∧
    (0 ≤ x → cellCoord x g.unit_width =
      ⌊(x + (g.unit_width : ℝ)) / (g.unit_width : ℝ)⌋) ∧
    (0 ≤ y → cellCoord y g.unit_height =
      ⌊(y + (g.unit_height : ℝ)) / (g.unit_height : ℝ)⌋) ∧
    ((cellCoord x g.unit_width < 0 ∨ g.x_units ≤ cellCoord x g.unit_width ∨
        cellCoord y g.unit_height < 0 ∨ g.y_units ≤ cellCoord y g.unit_height) →
      g.sectionIdAtPos x y = (USIZE_MAX, USIZE_MAX)) ∧
    (0 ≤ cellCoord x g.unit_width → cellCoord x g.unit_width < g.x_units →
      0 ≤ cellCoord y g.unit_height → cellCoord y g.unit_height < g.y_units →
      g.sectionIdAtPos x y =
        ((cellCoord x g.unit_width).toNat, (cellCoord y g.unit_height).toNat)) := by
  refine ⟨rfl, fun hx => cellCoord_floor x g.unit_width hw hx,
    fun hy => cellCoord_floor y g.unit_height hh hy, ?_, ?_⟩
  · intro hoob
    rw [Grid.sectionIdAtPos, Grid.sectionId, if_pos hoob]
  · intro h1 h2 h3 h4
    rw [Grid.sectionIdAtPos, Grid.sectionId, if_neg (by omega)]

/-- Witness for the amended C2 at `x = 25`, `y = 5` on a 10-pixel grid. -/
theorem c2_amended_cell_mapping_witness :
    0 < c2Grid.unit_width ∧ 0 < c2Grid.unit_height ∧ (0 : ℝ) ≤ 25 ∧
    cellCoord 25 c2Grid.unit_width =
      ⌊((25 : ℝ) + (c2Grid.unit_width : ℝ)) / (c2Grid.unit_width : ℝ)⌋ := by
  refine ⟨by decide, by decide, by norm_num, ?_⟩
  exact (c2_amended_cell_mapping c2Grid 25 5 (by decide) (by decide)).2.1 (by norm_num)

/-! ### C5: `cleanup` removes exactly the sentinel and bottom-row balls -/

/-- The ids of the ball references in an item list. -/
def ballIds (items : List PhysItem) : List ℕ :=
  items.filterMap fun item =>
    match item with
    | PhysItem.Ball i => some i
    | PhysItem.Wall _ => none

/-- The ids of the balls referenced from the sentinel cell followed by the
ids of the balls referenced from the bottommost row, in the order `cleanup`
processes them. -/
def removedIds (g : Grid) : List ℕ :=
  ballIds g.oob_items ++
    ((List.range (i32_to_usize g.x_units)).map fun x =>
      ballIds (g.cells x (i32_to_usize (g.y_units - 1)))).flatten

lemma ballIds_cons_wall (i : ℕ) (t : List PhysItem) :
    ballIds (PhysItem.Wall i :: t) = ballIds t := rfl

lemma ballIds_cons_ball (i : ℕ) (t : List PhysItem) :
    ballIds (PhysItem.Ball i :: t) = i :: ballIds t := rfl

lemma alistGet_cons {α : Type} (k : ℕ) (p : ℕ × α) (t : List (ℕ × α)) :
    alistGet k (p :: t) = if p.1 = k then some p.2 else alistGet k t := by
  cases p
  rfl

lemma alistEraseKey_cons {α : Type} (k : ℕ) (p : ℕ × α) (t : List (ℕ × α)) :
    alistEraseKey k (p :: t) =
      if p.1 = k then alistEraseKey k t else p :: alistEraseKey k t := by
  simp only [alistEraseKey, List.filter_cons]
  by_cases h : p.1 = k <;> simp [h]

lemma alistKeys_cons {α : Type} (p : ℕ × α) (t : List (ℕ × α)) :
    alistKeys (p :: t) = p.1 :: alistKeys t := rfl

lemma alistGet_eraseKey_self {α : Type} (k : ℕ) (l : List (ℕ × α)) :
    alistGet k (alistEraseKey k l) = none := by
  induction l with
  | nil => rfl
  | cons p t ih =>
    rw [alistEraseKey_cons]
    split_ifs with h
    · exact ih
    · rw [alistGet_cons, if_neg h]
      exact ih

lemma alistGet_eraseKey_ne {α : Type} (k k' : ℕ) (l : List (ℕ × α)) (h : k' ≠ k) :
    alistGet k' (alistEraseKey k l) = alistGet k' l := by
  induction l with
  | nil => rfl
  | cons p t ih =>
    rw [alistEraseKey_cons]
    by_cases h1 : p.1 = k
    · rw [if_pos h1, ih, alistGet_cons, if_neg (fun h2 => h (h2.symm.trans h1))]
    · rw [if_neg h1, alistGet_cons, alistGet_cons]
      by_cases h2 : p.1 = k'
      · rw [if_pos h2, if_pos h2]
      · rw [if_neg h2, if_neg h2, ih]

lemma alistEraseKey_of_not_mem {α : Type} (k : ℕ) (l : List (ℕ × α))
    (h : k ∉ alistKeys l) : alistEraseKey k l = l := by
  induction l with
  | nil => rfl
  | cons p t ih =>
    rw [alistKeys_cons, List.mem_cons] at h
    push_neg at h
    rw [alistEraseKey_cons, if_neg (by exact fun hc => h.1 hc.symm), ih h.2]

lemma alistEraseKey_length {α : Type} (k : ℕ) (l : List (ℕ × α))
    (hk : (alistKeys l).Nodup) (hm : (alistGet k l).isSome = true) :
    l.length = (alistEraseKey k l).length + 1 := by
  induction l with
  | nil => simp [alistGet] at hm
  | cons p t ih =>
    rw [alistKeys_cons, List.nodup_cons] at hk
    rw [alistEraseKey_cons]
    split_ifs with h
    · rw [alistEraseKey_of_not_mem k t (by rw [← h]; exact hk.1)]
      simp
    · rw [alistGet_cons, if_neg h] at hm
      simp only [List.length_cons]
      rw [ih hk.2 hm]

lemma alistKeys_eraseKey_nodup {α : Type} (k : ℕ) (l : List (ℕ × α))
    (hk : (alistKeys l).Nodup) : (alistKeys (alistEraseKey k l)).Nodup := by
  have hsub : List.Sublist (alistEraseKey k l) l := List.filter_sublist l
  exact hk.sublist (hsub.map Prod.fst)

/-- The combined effect of erasing a duplicate-free list of present keys:
the length drops by one per key, exactly the listed keys disappear, and key
distinctness is preserved. -/
lemma foldl_eraseKey_spec {α : Type} :
    ∀ (ids : List ℕ) (l : List (ℕ × α)), ids.Nodup →
      (∀ i ∈ ids, (alistGet i l).isSome = true) → (alistKeys l).Nodup →
      l.length = (ids.foldl (fun bs i => alistEraseKey i bs) l).length + ids.length ∧
      (∀ i, alistGet i (ids.foldl (fun bs i => alistEraseKey i bs) l) =
        if i ∈ ids then none else alistGet i l) ∧
      (alistKeys (ids.foldl (fun bs i => alistEraseKey i bs) l)).Nodup
  | [], l, _, _, hkeys => by
    refine ⟨by simp, fun i => by simp, hkeys⟩
  | k :: t, l, hnd, hmem, hkeys => by
    rw [List.nodup_cons] at hnd
    rw [List.foldl_cons]
    have h1 : l.length = (alistEraseKey k l).length + 1 :=
      alistEraseKey_length k l hkeys (hmem k (by simp))
    have hkeys' : (alistKeys (alistEraseKey k l)).Nodup :=
      alistKeys_eraseKey_nodup k l hkeys
    have hmem' : ∀ i ∈ t, (alistGet i (alistEraseKey k l)).isSome = true := by
      intro i hi
      rw [alistGet_eraseKey_ne k i l (by exact fun hik => hnd.1 (hik ▸ hi))]
      exact hmem i (List.mem_cons_of_mem k hi)
    obtain ⟨ihl, ihg, ihk⟩ := foldl_eraseKey_spec t (alistEraseKey k l) hnd.2 hmem' hkeys'
    refine ⟨by simp only [List.length_cons]; omega, ?_, ihk⟩
    intro i
    rw [ihg i]
    by_cases hit : i ∈ t
    · simp [hit]
    · rw [if_neg hit]
      by_cases hik : i = k
      · subst hik
        simp [alistGet_eraseKey_self]
      · rw [alistGet_eraseKey_ne k i l hik,
          if_neg (by simp [List.mem_cons, hik, hit])]

/-- Effect of the first `cleanup` loop over a snapshot list `L`. -/
lemma cleanup_oob_fold : ∀ (L : List PhysItem) (g : Grid),
    L.foldl cleanupOobStep g =
      { g with
        oob_items := (ballIds L).foldl (fun it i => removeBallItem i it) g.oob_items
        balls := (ballIds L).foldl (fun bs i => alistEraseKey i bs) g.balls
        ball_cnt := g.ball_cnt - (ballIds L).length }
  | [], g => rfl
  | (PhysItem.Wall i) :: t, g => by
    rw [List.foldl_cons, ballIds_cons_wall,
      show cleanupOobStep g (PhysItem.Wall i) = g from rfl]
    exact cleanup_oob_fold t g
  | (PhysItem.Ball i) :: t, g => by
    rw [List.foldl_cons, ballIds_cons_ball]
    rw [show cleanupOobStep g (PhysItem.Ball i) =
      { g with
        oob_items := removeBallItem i g.oob_items
        balls := alistEraseKey i g.balls
        ball_cnt := g.ball_cnt - 1 } from rfl]
    rw [cleanup_oob_fold t _]
    apply Grid.ext <;> try rfl
    simp only [List.length_cons]
    omega

/-- Effect of the inner loop of the second `cleanup` pass over a snapshot
list `L` at the cell `(x, y)`. -/
lemma cleanup_row_fold (x y : ℕ) : ∀ (L : List PhysItem) (g : Grid),
    L.foldl (cleanupRowStep x y) g =
      { g with
        cells := fun i j =>
          if i = x ∧ j = y then
            (ballIds L).foldl (fun it k => removeBallItem k it) (g.cells i j)
          else g.cells i j
        balls := (ballIds L).foldl (fun bs k => alistEraseKey k bs) g.balls
        ball_cnt := g.ball_cnt - (ballIds L).length }
  | [], g => by
    apply Grid.ext <;>
      first
        | rfl
        | (funext i j; simp [show ballIds ([] : List PhysItem) = [] from rfl])
        | simp [show ballIds ([] : List PhysItem) = [] from rfl]
  | (PhysItem.Wall i) :: t, g => by
    rw [List.foldl_cons, ballIds_cons_wall,
      show cleanupRowStep x y g (PhysItem.Wall i) = g from rfl]
    exact cleanup_row_fold x y t g
  | (PhysItem.Ball i) :: t, g => by
    rw [List.foldl_cons, ballIds_cons_ball]
    rw [show cleanupRowStep x y g (PhysItem.Ball i) =
      { g with
        cells := fun i' j' =>
          if i' = x ∧ j' = y then removeBallItem i (g.cells i' j')
          else g.cells i' j'
        balls := alistEraseKey i g.balls
        ball_cnt := g.ball_cnt - 1 } from rfl]
    rw [cleanup_row_fold x y t _]
    apply Grid.ext <;> try rfl
    · funext i' j'
      by_cases h : i' = x ∧ j' = y
      · simp only [if_pos h, List.foldl_cons]
      · simp only [if_neg h]
    · simp only [List.length_cons]
      omega

/-- Effect of the outer loop of the second `cleanup` pass over a
duplicate-free list of column indices `xs`: componentwise description. -/
lemma cleanup_outer_fold (y : ℕ) : ∀ (xs : List ℕ) (g : Grid), xs.Nodup →
    (xs.foldl (fun acc x => (acc.cells x y).foldl (cleanupRowStep x y) acc) g).balls =
      ((xs.map fun x => ballIds (g.cells x y)).flatten).foldl
        (fun bs k => alistEraseKey k bs) g.balls ∧
    (xs.foldl (fun acc x => (acc.cells x y).foldl (cleanupRowStep x y) acc) g).ball_cnt =
      g.ball_cnt - ((xs.map fun x => ballIds (g.cells x y)).flatten).length ∧
    (xs.foldl (fun acc x => (acc.cells x y).foldl (cleanupRowStep x y) acc) g).walls =
      g.walls ∧
    (∀ i j, i ∉ xs →
      (xs.foldl (fun acc x => (acc.cells x y).foldl (cleanupRowStep x y) acc) g).cells i j =
        g.cells i j)
  | [], g, _ => by
    refine ⟨by simp, by simp, rfl, fun i j _ => rfl⟩
  | x₀ :: t, g, hnd => by
    rw [List.nodup_cons] at hnd
    rw [List.foldl_cons]
    have hrow := cleanup_row_fold x₀ y (g.cells x₀ y) g
    obtain ⟨ih1, ih2, ih3, ih4⟩ := cleanup_outer_fold y t
      ((g.cells x₀ y).foldl (cleanupRowStep x₀ y) g) hnd.2
    have hRcells : ∀ a ∈ t,
        ((g.cells x₀ y).foldl (cleanupRowStep x₀ y) g).cells a y = g.cells a y := by
      intro a ha
      rw [hrow]
      refine if_neg ?_
      rintro ⟨h, -⟩
      exact hnd.1 (h ▸ ha)
    have hRballs : ((g.cells x₀ y).foldl (cleanupRowStep x₀ y) g).balls =
        (ballIds (g.cells x₀ y)).foldl (fun bs k => alistEraseKey k bs) g.balls := by
      rw [hrow]
    have hRcnt : ((g.cells x₀ y).foldl (cleanupRowStep x₀ y) g).ball_cnt =
        g.ball_cnt - (ballIds (g.cells x₀ y)).length := by
      rw [hrow]
    have hRwalls : ((g.cells x₀ y).foldl (cleanupRowStep x₀ y) g).walls = g.walls := by
      rw [hrow]
    have hmap : (t.map fun x =>
        ballIds (((g.cells x₀ y).foldl (cleanupRowStep x₀ y) g).cells x y)) =
        t.map fun x => ballIds (g.cells x y) :=
      List.map_congr_left fun a ha => by rw [hRcells a ha]
    refine ⟨?_, ?_, ?_, ?_⟩
    · rw [ih1, hmap, hRballs, List.map_cons, List.flatten_cons, List.foldl_append]
    · rw [ih2, hmap, hRcnt, List.map_cons, List.flatten_cons, List.length_append]
      omega
    · rw [ih3, hRwalls]
    · intro i j hmem
      rw [List.mem_cons] at hmem
      push_neg at hmem
      rw [ih4 i j hmem.2, hrow]
      refine if_neg ?_
      rintro ⟨h, -⟩
      exact hmem.1 h

/-- The components of `cleanup` relevant to the claims: the ball collection
after the fold of erasures over the removed ids, the count decrement, and
the untouched wall collection. -/
lemma cleanup_components (g : Grid) :
    g.cleanup.balls =
      (removedIds g).foldl (fun bs k => alistEraseKey k bs) g.balls ∧
    g.cleanup.ball_cnt = g.ball_cnt - (removedIds g).length ∧
    g.cleanup.walls = g.walls := by
  obtain ⟨h1, h2, h3, _⟩ := cleanup_outer_fold (i32_to_usize (g.y_units - 1))
    (List.range (i32_to_usize g.x_units)) (g.oob_items.foldl cleanupOobStep g)
    (List.nodup_range _)
  have hoob := cleanup_oob_fold g.oob_items g
  have hcells : (g.oob_items.foldl cleanupOobStep g).cells = g.cells := by rw [hoob]
  have hballs : (g.oob_items.foldl cleanupOobStep g).balls =
      (ballIds g.oob_items).foldl (fun bs i => alistEraseKey i bs) g.balls := by rw [hoob]
  have hcnt : (g.oob_items.foldl cleanupOobStep g).ball_cnt =
      g.ball_cnt - (ballIds g.oob_items).length := by rw [hoob]
  have hwalls : (g.oob_items.foldl cleanupOobStep g).walls = g.walls := by rw [hoob]
  rw [hcells, hballs] at h1
  rw [hcells, hcnt] at h2
  rw [hwalls] at h3
  refine ⟨?_, ?_, ?_⟩
  · simp only [Grid.cleanup]
    rw [h1, removedIds, List.foldl_append]
  · simp only [Grid.cleanup]
    rw [h2, removedIds, List.length_append]
    omega
  · simp only [Grid.cleanup]
    rw [h3]

/-- Claim C5: `cleanup` removes exactly the balls referenced from the
sentinel cell and from the bottommost row of cells (each once, given the
documented invariant that a ball reference appears in exactly one cell),
deleting each from the ball collection and decrementing the live count by
one per removed ball; walls are never removed.  In particular the ball
count is unchanged when no ball is in the sentinel or bottom row, and drops
by exactly two when there is one ball in each. -/
theorem c5_cleanup_removes_exactly (g : Grid)
    (hx : 0 ≤ g.x_units) (hy : 0 < g.y_units)
    (hnodup : (removedIds g).Nodup)
    (hmem : ∀ i ∈ removedIds g, (alistGet i g.balls).isSome = true)
    (hkeys : (alistKeys g.balls).Nodup) :
    g.cleanup.walls = g.walls ∧
    (∀ i, alistGet i g.cleanup.balls =
      if i ∈ removedIds g then none else alistGet i g.balls) ∧
    g.balls.length = g.cleanup.balls.length + (removedIds g).length ∧
    g.cleanup.ball_cnt = g.ball_cnt - (removedIds g).length := by
  obtain ⟨hballs, hcnt, hwalls⟩ := cleanup_components g
  obtain ⟨hlen, hget, _⟩ := foldl_eraseKey_spec (removedIds g) g.balls hnodup hmem hkeys
  refine ⟨hwalls, ?_, ?_, hcnt⟩
  · intro i
    rw [hballs]
    exact hget i
  · rw [hballs]
    exact hlen

def c5Wall : Wall := ⟨0, (0, 0), (0, 0), 10, (0, 0), 0, (0, 0), 1 / 10, 1 / 10⟩

def c5BallA : Ball := ⟨0, (-5, 5), (0, 0), 10, 1 / 10, 1 / 10, (USIZE_MAX, USIZE_MAX)⟩

def c5BallB : Ball := ⟨1, (5, 115), (0, 0), 10, 1 / 10, 1 / 10, (0, 11)⟩

def c5Grid : Grid :=
  { unit_width := 10, unit_height := 10,
    cells := fun x y => if x = 0 ∧ y = 11 then [PhysItem.Ball 1, PhysItem.Wall 0] else [],
    oob_items := [PhysItem.Ball 0],
    walls := [(0, c5Wall)], balls := [(0, c5BallA), (1, c5BallB)],
    x_units := 12, y_units := 12, ball_cnt := 2, ball_id := 2, wall_cnt := 1, wall_id := 1 }

/-- Witness for C5: a grid with one ball in the sentinel cell and one ball
(plus a wall reference) in the bottom row; the count drops by exactly two
and the wall collection is untouched. -/
theorem c5_cleanup_removes_exactly_witness :
    (0 ≤ c5Grid.x_units ∧ 0 < c5Grid.y_units ∧ (removedIds c5Grid).Nodup ∧
      (∀ i ∈ removedIds c5Grid, (alistGet i c5Grid.balls).isSome = true) ∧
      (alistKeys c5Grid.balls).Nodup) ∧
    c5Grid.cleanup.walls = c5Grid.walls ∧
    c5Grid.cleanup.ball_cnt = c5Grid.ball_cnt - (removedIds c5Grid).length ∧
    (removedIds c5Grid).length = 2 := by
  have h1 : 0 ≤ c5Grid.x_units := by decide
  have h2 : 0 < c5Grid.y_units := by decide
  have h3 : (removedIds c5Grid).Nodup := by decide
  have h4 : ∀ i ∈ removedIds c5Grid, (alistGet i c5Grid.balls).isSome = true := by decide
  have h5 : (alistKeys c5Grid.balls).Nodup := by decide
  have hc := c5_cleanup_removes_exactly c5Grid h1 h2 h3 h4 h5
  exact ⟨⟨h1, h2, h3, h4, h5⟩, hc.1, hc.2.2.2, by decide⟩

/-! ### C9: cell reconciliation is idempotent -/

lemma alistGet_update_of_some {α : Type} (k : ℕ) (v : α) (l : List (ℕ × α)) (w : α)
    (h : alistGet k l = some w) : alistGet k (alistUpdate k v l) = some v := by
  induction l with
  | nil => simp [alistGet] at h
  | cons p t ih =>
    rw [alistGet_cons] at h
    simp only [alistUpdate, List.map_cons]
    by_cases h1 : p.1 = k
    · rw [if_pos h1, alistGet_cons, if_pos rfl]
    · rw [if_neg h1] at h ⊢
      rw [alistGet_cons, if_neg h1]
      exact ih h

lemma alistUpdate_length {α : Type} (k : ℕ) (v : α) (l : List (ℕ × α)) :
    (alistUpdate k v l).length = l.length :=
  List.length_map l _

/-- What a successful `Grid::move_ball` guarantees: the grid geometry is
unchanged and the moved ball is stored with its cached cell equal to the
cell computed from its (unchanged) position. -/
lemma move_ball_key (g : Grid) (idx : ℕ) (g' : Grid) (h : g.move_ball idx = some g') :
    g'.unit_width = g.unit_width ∧ g'.unit_height = g.unit_height ∧
    g'.x_units = g.x_units ∧ g'.y_units = g.y_units ∧
    ∃ nb : Ball, alistGet idx g'.balls = some nb ∧
      nb.unit_id = g.sectionIdAtPos nb.position.1 nb.position.2 := by
  simp only [Grid.move_ball, Grid.pushItemAtPos, Grid.pushItem] at h
  split at h
  · exact absurd h (by simp)
  · rename_i ball heq
    split_ifs at h with hsid
    all_goals injection h with h
    all_goals subst h
    · exact ⟨rfl, rfl, rfl, rfl, ball, heq, hsid.symm⟩
    all_goals exact ⟨rfl, rfl, rfl, rfl,
      { ball with unit_id := g.sectionIdAtPos ball.position.1 ball.position.2 },
      alistGet_update_of_some idx _ g.balls ball heq, rfl⟩

/-- Claim C9: `Grid::move_ball` (cell reconciliation) is idempotent: a
second call immediately after a successful first call, with no position
change in between, performs no mutation (it returns the grid unchanged). -/
theorem c9_move_ball_idempotent (g : Grid) (idx : ℕ) (g' : Grid)
    (h : g.move_ball idx = some g') : g'.move_ball idx = some g' := by
  obtain ⟨hw, hh, hx, hy, nb, hget, hunit⟩ := move_ball_key g idx g' h
  have hsid : g'.sectionIdAtPos nb.position.1 nb.position.2 =
      g.sectionIdAtPos nb.position.1 nb.position.2 := by
    rw [Grid.sectionIdAtPos, Grid.sectionIdAtPos, Grid.sectionId, Grid.sectionId,
      hw, hh, hx, hy]
  rw [Grid.move_ball, hget]
  simp only [hsid, ← hunit]
  simp

def c9Ball : Ball := ⟨0, (((25 : ℤ) : ℝ), ((75 : ℤ) : ℝ)), (0, 0), 10, 1 / 10, 1 / 10, (1, 2)⟩

def c9Grid : Grid :=
  { unit_width := 50, unit_height := 50,
    cells := fun x y => if x = 1 ∧ y = 2 then [PhysItem.Ball 0] else [],
    oob_items := [], walls := [], balls := [(0, c9Ball)],
    x_units := 4, y_units := 4, ball_cnt := 1, ball_id := 1, wall_cnt := 0, wall_id := 0 }

lemma c9_move_eval : c9Grid.move_ball 0 = some c9Grid := by
  have hget : alistGet 0 c9Grid.balls = some c9Ball := rfl
  have hx : cellCoord c9Ball.position.1 c9Grid.unit_width = 1 := by
    show cellCoord ((25 : ℤ) : ℝ) 50 = 1
    rw [cellCoord, ftrunc_intCast]
    decide
  have hy : cellCoord c9Ball.position.2 c9Grid.unit_height = 2 := by
    show cellCoord ((75 : ℤ) : ℝ) 50 = 2
    rw [cellCoord, ftrunc_intCast]
    decide
  have hsid : c9Grid.sectionIdAtPos c9Ball.position.1 c9Ball.position.2 = (1, 2) := by
    rw [Grid.sectionIdAtPos, hx, hy]
    decide
  rw [Grid.move_ball, hget]
  simp only [hsid]
  rw [if_pos (show ((1, 2) : ℕ × ℕ) = c9Ball.unit_id from rfl)]

/-- Witness for C9 at a concrete grid: the reconciliation succeeds and the
repeated call returns the grid unchanged. -/
theorem c9_move_ball_idempotent_witness : c9Grid.move_ball 0 = some c9Grid :=
  c9_move_ball_idempotent c9Grid 0 c9Grid c9_move_eval

/-! ### C10: the live count tracks the ball collection -/

lemma foldlM_option_preserve {σ α : Type} (P : σ → Prop) (f : σ → α → Option σ)
    (hf : ∀ s a s', P s → f s a = some s' → P s') :
    ∀ (l : List α) (s s' : σ), P s → List.foldlM f s l = some s' → P s'
  | [], s, s', hs, h => by
    rw [List.foldlM_nil] at h
    have h' : some s = some s' := h
    exact (Option.some.inj h') ▸ hs
  | a :: t, s, s', hs, h => by
    rw [List.foldlM_cons] at h
    cases hfa : f s a with
    | none =>
      rw [hfa] at h
      exact Option.noConfusion (show (none : Option σ) = some s' from h)
    | some s1 =>
      rw [hfa] at h
      exact foldlM_option_preserve P f hf t s1 s' (hf s a s1 hs hfa) h

lemma hcItem_length (g : Grid) (idx : ℕ) (st : List (ℕ × Ball) × List ℕ)
    (item : PhysItem) (st' : List (ℕ × Ball) × List ℕ)
    (h : hcItem g idx st item = some st') : st'.1.length = st.1.length := by
  cases item with
  | Ball o =>
    simp only [hcItem] at h
    split_ifs at h with h1 h2
    · exact (Option.some.inj h) ▸ rfl
    · split at h
      · injection h with h
        subst h
        simp [alistUpdate_length]
      · exact (Option.some.inj h) ▸ rfl
  | Wall o =>
    simp only [hcItem] at h
    split_ifs at h with h1
    · exact (Option.some.inj h) ▸ rfl
    · split at h
      · exact absurd h (by simp)
      · split at h
        · exact absurd h (by simp)
        · injection h with h
          subst h
          simp [alistUpdate_length]

lemma hcCell_length (g : Grid) (idx : ℕ) (st : List (ℕ × Ball) × List ℕ)
    (x y : ℤ) (st' : List (ℕ × Ball) × List ℕ)
    (h : hcCell g idx st x y = some st') : st'.1.length = st.1.length := by
  simp only [hcCell] at h
  split_ifs at h with h1
  · exact foldlM_option_preserve (fun s => s.1.length = st.1.length) (hcItem g idx)
      (fun s a s' hp hsome => (hcItem_length g idx s a s' hsome).trans hp)
      _ st st' rfl h
  · exact (Option.some.inj h) ▸ rfl

lemma hcBall_length (g : Grid) (balls : List (ℕ × Ball)) (idx : ℕ)
    (bs' : List (ℕ × Ball)) (h : hcBall g balls idx = some bs') :
    bs'.length = balls.length := by
  simp only [hcBall] at h
  split at h
  · exact (Option.some.inj h) ▸ rfl
  · rcases Option.map_eq_some'.mp h with ⟨st, hst, hfst⟩
    subst hfst
    exact foldlM_option_preserve (fun s : List (ℕ × Ball) × List ℕ =>
        s.1.length = balls.length)
      _
      (fun s a s' hp hsome =>
        foldlM_option_preserve (fun s2 : List (ℕ × Ball) × List ℕ =>
            s2.1.length = balls.length)
          _
          (fun s2 b s2' hp2 hsome2 => (hcCell_length g idx s2 _ b s2' hsome2).trans hp2)
          _ s s' hp hsome)
      _ (balls, [idx]) st rfl hst

lemma handle_collisions_count (g g' : Grid) (h : g.handle_collisions = some g') :
    g'.ball_cnt = g.ball_cnt ∧ g'.balls.length = g.balls.length := by
  simp only [Grid.handle_collisions] at h
  rcases Option.map_eq_some'.mp h with ⟨bs, hbs, hg'⟩
  subst hg'
  refine ⟨rfl, ?_⟩
  exact foldlM_option_preserve (fun l : List (ℕ × Ball) => l.length = g.balls.length)
    (hcBall g) (fun s a s' hp hsome => (hcBall_length g s a s' hsome).trans hp)
    _ g.balls bs rfl hbs

lemma move_ball_count (g : Grid) (idx : ℕ) (g' : Grid) (h : g.move_ball idx = some g') :
    g'.ball_cnt = g.ball_cnt ∧ g'.balls.length = g.balls.length := by
  simp only [Grid.move_ball, Grid.pushItemAtPos, Grid.pushItem] at h
  split at h
  · exact absurd h (by simp)
  · split_ifs at h
    all_goals injection h with h
    all_goals subst h
    · exact ⟨rfl, rfl⟩
    all_goals exact ⟨rfl, alistUpdate_length idx _ _⟩

/-- Claim C10: the live ball count field tracks the number of entries in the
ball collection: `add_ball` increments both by one (the new id is fresh),
`cleanup` decrements both by one per removed ball, `move_ball` and
`handle_collisions` change neither; consequently `ball_cnt = |balls|` is
preserved by every public grid operation. -/
theorem c10_ball_cnt_tracks_collection (g : Grid) :
    (∀ b : Ball, g.ball_id ∉ alistKeys g.balls →
      (g.add_ball b).ball_cnt = g.ball_cnt + 1 ∧
      (g.add_ball b).balls.length = g.balls.length + 1) ∧
    ((removedIds g).Nodup →
      (∀ i ∈ removedIds g, (alistGet i g.balls).isSome = true) →
      (alistKeys g.balls).Nodup →
      g.cleanup.ball_cnt = g.ball_cnt - (removedIds g).length ∧
      g.balls.length = g.cleanup.balls.length + (removedIds g).length) ∧
    (∀ (idx : ℕ) (g' : Grid), g.move_ball idx = some g' →
      g'.ball_cnt = g.ball_cnt ∧ g'.balls.length = g.balls.length) ∧
    (∀ g' : Grid, g.handle_collisions = some g' →
      g'.ball_cnt = g.ball_cnt ∧ g'.balls.length = g.balls.length) ∧
    (g.ball_cnt = g.balls.length →
      (∀ b : Ball, g.ball_id ∉ alistKeys g.balls →
        (g.add_ball b).ball_cnt = (g.add_ball b).balls.length) ∧
      ((removedIds g).Nodup →
        (∀ i ∈ removedIds g, (alistGet i g.balls).isSome = true) →
        (alistKeys g.balls).Nodup →
        g.cleanup.ball_cnt = g.cleanup.balls.length) ∧
      (∀ (idx : ℕ) (g' : Grid), g.move_ball idx = some g' →
        g'.ball_cnt = g'.balls.length) ∧
      (∀ g' : Grid, g.handle_collisions = some g' →
        g'.ball_cnt = g'.balls.length)) := by
  have hadd : ∀ b : Ball, g.ball_id ∉ alistKeys g.balls →
      (g.add_ball b).ball_cnt = g.ball_cnt + 1 ∧
      (g.add_ball b).balls.length = g.balls.length + 1 := by
    intro b hfresh
    refine ⟨rfl, ?_⟩
    show (alistInsert g.ball_id _ g.balls).length = g.balls.length + 1
    rw [alistInsert, alistEraseKey_of_not_mem _ _ hfresh, List.length_cons]
  have hclean : (removedIds g).Nodup →
      (∀ i ∈ removedIds g, (alistGet i g.balls).isSome = true) →
      (alistKeys g.balls).Nodup →
      g.cleanup.ball_cnt = g.ball_cnt - (removedIds g).length ∧
      g.balls.length = g.cleanup.balls.length + (removedIds g).length := by
    intro h1 h2 h3
    obtain ⟨hballs, hcnt, _⟩ := cleanup_components g
    obtain ⟨hlen, _, _⟩ := foldl_eraseKey_spec (removedIds g) g.balls h1 h2 h3
    rw [hballs]
    exact ⟨hcnt, hlen⟩
  refine ⟨hadd, hclean, fun idx g' h => move_ball_count g idx g' h,
    fun g' h => handle_collisions_count g g' h, ?_⟩
  intro hinv
  refine ⟨?_, ?_, ?_, ?_⟩
  · intro b hfresh
    obtain ⟨h1, h2⟩ := hadd b hfresh
    omega
  · intro h1 h2 h3
    obtain ⟨hc, hl⟩ := hclean h1 h2 h3
    omega
  · intro idx g' h
    obtain ⟨h1, h2⟩ := move_ball_count g idx g' h
    omega
  · intro g' h
    obtain ⟨h1, h2⟩ := handle_collisions_count g g' h
    omega

lemma c10_hc_eval : c2Grid.handle_collisions = some c2Grid := rfl

/-- Witness for C10: each operation conjunct instantiated at a concrete
grid with its hypotheses discharged. -/
theorem c10_ball_cnt_tracks_collection_witness :
    (c5Grid.ball_id ∉ alistKeys c5Grid.balls ∧
      (c5Grid.add_ball c9Ball).ball_cnt = c5Grid.ball_cnt + 1 ∧
      (c5Grid.add_ball c9Ball).balls.length = c5Grid.balls.length + 1) ∧
    (c5Grid.cleanup.ball_cnt = c5Grid.ball_cnt - (removedIds c5Grid).length) ∧
    (c9Grid.move_ball 0 = some c9Grid ∧ c9Grid.ball_cnt = c9Grid.ball_cnt) ∧
    (c2Grid.handle_collisions = some c2Grid ∧ c2Grid.ball_cnt = c2Grid.ball_cnt) := by
  have hfresh : c5Grid.ball_id ∉ alistKeys c5Grid.balls := by decide
  have hadd := (c10_ball_cnt_tracks_collection c5Grid).1 c9Ball hfresh
  have hclean := (c10_ball_cnt_tracks_collection c5Grid).2.1 (by decide) (by decide) (by decide)
  have hmove := (c10_ball_cnt_tracks_collection c9Grid).2.2.1 0 c9Grid c9_move_eval
  have hhc := (c10_ball_cnt_tracks_collection c2Grid).2.2.2.1 c2Grid c10_hc_eval
  exact ⟨⟨hfresh, hadd.1, hadd.2⟩, hclean.1, ⟨c9_move_eval, hmove.1 ▸ rfl⟩,
    ⟨c10_hc_eval, hhc.1 ▸ rfl⟩⟩

/-! ### C3: the `handled` list conflates ball and wall ids -/

def c3Wall : Wall := ⟨0, (0, 50), (100, 50), 10, (1, 0), 100, (0, 1), 1 / 10, 1 / 10⟩

/-- `c3Wall` is exactly what `Wall::new` produces for the horizontal segment
from `(0, 50)` to `(100, 50)` with default parameters. -/
lemma c3Wall_eq_new : Wall.new (0, 50) (100, 50) none none none = c3Wall := by
  have hvec : find_vector ((0 : ℝ), (50 : ℝ)) (100, 50) = (100, 0) := by
    simp [find_vector]
  have hmag : get_magnitude (100, 0) = 100 :=
    magnitude_eval 100 0 100 (by norm_num) (by norm_num)
  have hnorm : normalize (100, 0) = (1, 0) := by
    rw [normalize_eval 100 0 100 (by norm_num) hmag]
    norm_num
  simp only [Wall.new, c3Wall, hvec, hmag, hnorm, find_normal]
  norm_num

def c3Ball : Ball := ⟨0, (((50 : ℤ) : ℝ), ((45 : ℤ) : ℝ)), (0, 5), 10, 1 / 10, 1 / 10, (2, 1)⟩

def c3Grid : Grid :=
  { unit_width := 50, unit_height := 50,
    cells := fun x y =>
      if x = 2 ∧ y = 1 then [PhysItem.Ball 0]
      else if y = 2 ∧ (x = 1 ∨ x = 2 ∨ x = 3) then [PhysItem.Wall 0]
      else [],
    oob_items := [], walls := [(0, c3Wall)], balls := [(0, c3Ball)],
    x_units := 4, y_units := 4, ball_cnt := 1, ball_id := 1, wall_cnt := 1, wall_id := 1 }

lemma c3_hcBall_eval : hcBall c3Grid c3Grid.balls 0 = some c3Grid.balls := by
  show ((range3 (cellCoord c3Ball.position.1 c3Grid.unit_width)).foldlM
      (fun st1 x => (range3 (cellCoord c3Ball.position.2 c3Grid.unit_height)).foldlM
        (fun st2 y => hcCell c3Grid 0 st2 x y) st1)
      (c3Grid.balls, [0])).map Prod.fst = some c3Grid.balls
  have hx : cellCoord c3Ball.position.1 c3Grid.unit_width = 2 := by
    show cellCoord ((50 : ℤ) : ℝ) 50 = 2
    rw [cellCoord, ftrunc_intCast]
    decide
  have hy : cellCoord c3Ball.position.2 c3Grid.unit_height = 1 := by
    show cellCoord ((45 : ℤ) : ℝ) 50 = 1
    rw [cellCoord, ftrunc_intCast]
    decide
  rw [hx, hy]
  rfl

lemma c3_hc_eval : c3Grid.handle_collisions = some c3Grid := by
  show ((List.range c3Grid.ball_id).foldlM (hcBall c3Grid) c3Grid.balls).map
      (fun bs => { c3Grid with balls := bs }) = some c3Grid
  rw [show List.range c3Grid.ball_id = [0] from rfl, List.foldlM_cons, c3_hcBall_eval]
  rfl

lemma c3_wall_collision_velocity : (c3Ball.wall_collision c3Wall).velocity = (0, -1) := by
  have htdiv : Int.tdiv (10 : ℤ) 2 = 5 := by decide
  simp only [Ball.wall_collision, c3Ball, c3Wall, find_vector, dot]
  norm_num [htdiv]

/-- Claim C3 is the intended behavior (spec §4.4 and §3 describe body
references tagged by kind plus id, and an already-handled set that only
suppresses repeats of the same pair), but the code stores bare ids in the
`handled` list, conflating wall and ball ids: here wall 0 overlaps ball 0
and sits in ball 0's scanned neighborhood (cell `(2, 2)`), a wall-ball
resolution would change the ball's velocity, yet `handle_collisions`
resolves nothing because the list is seeded with the ball's own id 0. -/
theorem c3_handle_collisions_skips_wall :
    c3Grid.handle_collisions = some c3Grid ∧
    PhysItem.Wall 0 ∈ c3Grid.cells 2 2 ∧
    alistGet 0 c3Grid.walls = some c3Wall ∧
    (c3Ball.wall_collision c3Wall).velocity ≠ c3Ball.velocity := by
  refine ⟨c3_hc_eval, by decide, rfl, ?_⟩
  rw [c3_wall_collision_velocity]
  intro h
  have h2 := congrArg Prod.snd h
  have h3 : c3Ball.velocity.2 = 5 := rfl
  rw [h3] at h2
  norm_num at h2

/-! ### C7: the DDA traversal's step bound -/

/-- Potential function bounding the number of in-bounds crossings the loop
can still perform on one axis: the crossing direction is the sign branch the
code takes (`+1` if the velocity component is positive, `-1` otherwise). -/
def potD (v : ℝ) (units c : ℤ) : ℤ :=
  if v > 0 then max 0 (min (units + 1) (units - c)) else max 0 (min (units + 1) (c + 1))

lemma potD_nonneg (v : ℝ) (u c : ℤ) : 0 ≤ potD v u c := by
  unfold potD
  split_ifs <;> omega

lemma potD_le (v : ℝ) (u c : ℤ) (hu : 0 ≤ u) : potD v u c ≤ u + 1 := by
  unfold potD
  split_ifs <;> omega

lemma potD_step (v : ℝ) (u c c' : ℤ) (hc' : c' = if v > 0 then c + 1 else c - 1)
    (h0 : 0 ≤ c') (h1 : c' < u) : potD v u c = potD v u c' + 1 := by
  unfold potD
  split_ifs at hc' ⊢ with hv
  · subst hc'
    omega
  · subst hc'
    omega

/-- Every boundary crossing moves exactly one of the two cell coordinates,
by one cell, in the fixed direction given by the corresponding velocity
component's sign branch. -/
lemma ddaNext_cases (g : Grid) (vx vy : ℝ) (st : DdaState) :
    ((ddaNext g vx vy st).1 = (if vx > 0 then st.cx + 1 else st.cx - 1) ∧
      (ddaNext g vx vy st).2.1 = st.cy) ∨
    ((ddaNext g vx vy st).1 = st.cx ∧
      (ddaNext g vx vy st).2.1 = (if vy > 0 then st.cy + 1 else st.cy - 1)) := by
  simp only [ddaNext]
  split
  all_goals try split_ifs
  all_goals
    first
      | exact Or.inl ⟨rfl, rfl⟩
      | exact Or.inr ⟨rfl, rfl⟩

/-- The loop's final `steps` value is bounded by its entry `steps` plus the
potential of the entry cell coordinates, plus one (for a final crossing that
either leaves the grid or trips the safety limit). -/
lemma ddaLoop_steps_le (g : Grid) (vx vy : ℝ) (endId : ℕ × ℕ) (ms : ℤ) :
    ∀ (fuel : ℕ) (st : DdaState),
      (ddaLoop g vx vy endId ms fuel st).2 ≤
        st.steps + potD vx g.x_units st.cx + potD vy g.y_units st.cy + 1
  | 0, st => by
    have hpx := potD_nonneg vx g.x_units st.cx
    have hpy := potD_nonneg vy g.y_units st.cy
    simp only [ddaLoop]
    omega
  | fuel + 1, st => by
    have hpx := potD_nonneg vx g.x_units st.cx
    have hpy := potD_nonneg vy g.y_units st.cy
    simp only [ddaLoop]
    by_cases h1 : st.curr = endId
    · rw [if_pos h1]
      dsimp only
      omega
    · rw [if_neg h1]
      by_cases h2 : (ddaNext g vx vy st).1 < 0 ∨ g.x_units ≤ (ddaNext g vx vy st).1 ∨
          (ddaNext g vx vy st).2.1 < 0 ∨ g.y_units ≤ (ddaNext g vx vy st).2.1
      · rw [if_pos h2]
        dsimp only
        omega
      · rw [if_neg h2]
        push_neg at h2
        obtain ⟨h2a, h2b, h2c, h2d⟩ := h2
        by_cases h3 : ms < st.steps + 1
        · rw [if_pos h3]
          dsimp only
          omega
        · rw [if_neg h3]
          refine le_trans (ddaLoop_steps_le g vx vy endId ms fuel _) ?_
          dsimp only
          rcases ddaNext_cases g vx vy st with ⟨hcx, hcy⟩ | ⟨hcx, hcy⟩
          · have hstep := potD_step vx g.x_units st.cx ((ddaNext g vx vy st).1)
              hcx (by omega) (by omega)
            rw [hcy]
            omega
          · have hstep := potD_step vy g.y_units st.cy ((ddaNext g vx vy st).2.1)
              hcy (by omega) (by omega)
            rw [hcx]
            omega

/-- Claim C7: for every pair of segment endpoints, the line-to-cells
traversal terminates (the embedding is a total function whose recursion is
bounded by the source's own `steps` counter), and the number of
boundary-crossing steps it performs before returning is at most
`2 * (columnCount + rowCount) + 10`; the explicit `max_steps` check in the
loop truncates rather than looping if that limit were ever reached. -/
theorem c7_traversal_step_bound (g : Grid) (hx : 0 ≤ g.x_units) (hy : 0 ≤ g.y_units) :
    ∀ (s e : Vec2) (res : List (ℕ × ℕ) × ℤ),
      g.get_sections_between_points s e = some res →
      res.2 ≤ (g.x_units + g.y_units) * 2 + 10 := by
  intro s e res h
  simp only [Grid.get_sections_between_points] at h
  split_ifs at h with h1 h2
  · injection h with h
    subst h
    dsimp only
    omega
  all_goals
    injection h with h
  all_goals
    subst h
  all_goals
    dsimp only
  all_goals
    have hb := ddaLoop_steps_le g (normalize (find_vector s e)).1
      (normalize (find_vector s e)).2 (g.sectionIdAtPos e.1 e.2)
      ((g.x_units + g.y_units) * 2 + 10)
      (((g.x_units + g.y_units) * 2 + 10).toNat + 4)
      ⟨[], g.sectionId (cellCoord s.1 g.unit_width) (cellCoord s.2 g.unit_height),
        cellCoord s.1 g.unit_width, cellCoord s.2 g.unit_height,
        some (fmodf s.1 (g.unit_width : ℝ)), fmodf s.2 (g.unit_height : ℝ), 0⟩
  all_goals
    dsimp only at hb
  all_goals
    have hp1 := potD_le (normalize (find_vector s e)).1 g.x_units
      (cellCoord s.1 g.unit_width) hx
  all_goals
    have hp2 := potD_le (normalize (find_vector s e)).2 g.y_units
      (cellCoord s.2 g.unit_height) hy
  all_goals
    omega

lemma c7_eval : c9Grid.get_sections_between_points (25, 25) (25, 25) =
    some ([(1, 1)], 0) := by
  have hfv : find_vector ((25 : ℝ), (25 : ℝ)) (25, 25) = (0, 0) := by
    simp [find_vector]
  have hnv : normalize (find_vector ((25 : ℝ), (25 : ℝ)) (25, 25)) = (0, 0) := by
    rw [hfv, normalize_zero]
  have h25w : cellCoord (25 : ℝ) c9Grid.unit_width = 1 := by
    show cellCoord (25 : ℝ) 50 = 1
    rw [show (25 : ℝ) = ((25 : ℤ) : ℝ) by norm_num, cellCoord, ftrunc_intCast]
    decide
  have h25h : cellCoord (25 : ℝ) c9Grid.unit_height = 1 := by
    show cellCoord (25 : ℝ) 50 = 1
    rw [show (25 : ℝ) = ((25 : ℤ) : ℝ) by norm_num, cellCoord, ftrunc_intCast]
    decide
  simp only [Grid.get_sections_between_points, hnv]
  rw [if_neg (by decide : ¬(c9Grid.unit_width = 0 ∨ c9Grid.unit_height = 0))]
  rw [if_pos (Or.inl (by simp))]
  rw [h25w, h25h, show c9Grid.sectionId 1 1 = (1, 1) from by decide]

/-- Witness for C7 at a concrete grid and segment: a traversal that returns
with `0` boundary-crossing steps, within the bound. -/
theorem c7_traversal_step_bound_witness :
    (0 ≤ c9Grid.x_units ∧ 0 ≤ c9Grid.y_units) ∧
    c9Grid.get_sections_between_points (25, 25) (25, 25) = some ([(1, 1)], 0) ∧
    (0 : ℤ) ≤ (c9Grid.x_units + c9Grid.y_units) * 2 + 10 := by
  refine ⟨⟨by decide, by decide⟩, c7_eval, ?_⟩
  exact c7_traversal_step_bound c9Grid (by decide) (by decide) (25, 25) (25, 25)
    ([(1, 1)], 0) c7_eval

end

end RPhys
